import Mathlib

set_option maxHeartbeats 1000000
set_option maxRecDepth 4000

/-!
Shallow embedding of the behavioral-verification engine of the repository
(the `BehaviorAnalyzer` class and the `RhythmCaptcha` challenge logic).
Numbers are modelled as exact rationals; the transcendental library calls
`Math.sqrt` and `Math.atan2` are abstracted as oracle function parameters
(`sq` and `at2`), since every claim under verification is independent of
their exact values or only constrains them through explicit hypotheses.
-/

/-- Challenge mode tag: the `"rhythm" | "precision"` union in the source. -/
inductive Mode
| rhythm
| precision
deriving DecidableEq

/-- One throttled pointer sample `{x, y, t}` as pushed into `mousePositions`. -/
structure MousePos where
  x : ℚ
  y : ℚ
  t : ℚ
deriving DecidableEq

/-- The mutable fields of the `BehaviorAnalyzer` class. -/
structure BehaviorAnalyzer where
  mousePositions : List MousePos
  clickTimings : List ℚ
  tapTimings : List ℚ
  mouseVelocities : List ℚ
  hesitations : ℕ
  microMovements : ℕ
  lastMouseTime : ℚ
  lastMousePos : ℚ × ℚ
  startTime : ℚ
deriving DecidableEq

/-- A freshly constructed analyzer: the class field initializers.
`startTime = Date.now()` at construction is the parameter `t0`. -/
def BehaviorAnalyzer.init (t0 : ℚ) : BehaviorAnalyzer where
  mousePositions := []
  clickTimings := []
  tapTimings := []
  mouseVelocities := []
  hesitations := 0
  microMovements := 0
  lastMouseTime := 0
  lastMousePos := (0, 0)
  startTime := t0

/-- The velocity value `dt > 0 ? dist / dt : 0` computed by `trackMouse` for an
accepted sample, relative to the last accepted sample recorded in `s`. -/
def sampleVelocity (sq : ℚ → ℚ) (s : BehaviorAnalyzer) (x y now : ℚ) : ℚ :=
  let dt := now - s.lastMouseTime
  let dx := x - s.lastMousePos.1
  let dy := y - s.lastMousePos.2
  if 0 < dt then sq (dx * dx + dy * dy) / dt else 0

/-- `trackMouse(x, y)` with `now = Date.now()` at the call and `sq` standing for
`Math.sqrt`: throttles events closer than 30 ms to the last accepted sample,
appends position and velocity, evicts the oldest entries beyond 150, and
updates the micro-movement and hesitation counters. -/
def BehaviorAnalyzer.trackMouse (sq : ℚ → ℚ) (s : BehaviorAnalyzer) (x y now : ℚ) :
    BehaviorAnalyzer :=
  let dt := now - s.lastMouseTime
  if dt < 30 then s
  else
    let dx := x - s.lastMousePos.1
    let dy := y - s.lastMousePos.2
    let dist := sq (dx * dx + dy * dy)
    let ps := s.mousePositions ++ [⟨x, y, now⟩]
    let vs := s.mouseVelocities ++ [sampleVelocity sq s x y now]
    { s with
      mousePositions := if 150 < ps.length then ps.drop 1 else ps
      mouseVelocities := if 150 < ps.length then vs.drop 1 else vs
      microMovements := s.microMovements + (if 0 < dist ∧ dist < 3 then 1 else 0)
      hesitations := s.hesitations + (if 200 < dt ∧ 5 < dist then 1 else 0)
      lastMouseTime := now
      lastMousePos := (x, y) }

/-- `trackClick(ts)`: unbounded append. -/
def BehaviorAnalyzer.trackClick (s : BehaviorAnalyzer) (ts : ℚ) : BehaviorAnalyzer :=
  { s with clickTimings := s.clickTimings ++ [ts] }

/-- `trackTap(ts)`: unbounded append. -/
def BehaviorAnalyzer.trackTap (s : BehaviorAnalyzer) (ts : ℚ) : BehaviorAnalyzer :=
  { s with tapTimings := s.tapTimings ++ [ts] }

/-- Direction angle of the segment from `p` to `q`: `Math.atan2(qy - py, qx - px)`,
with `at2` standing for `Math.atan2`. -/
def segAngle (at2 : ℚ → ℚ → ℚ) (p q : MousePos) : ℚ :=
  at2 (q.y - p.y) (q.x - p.x)

/-- The accumulated `j` of `computePathJitter`: the sum over index `i ≥ 2` of
`|atan2(p2 - p1) - atan2(p1 - p0)|` for consecutive triples. -/
def jitterSum (at2 : ℚ → ℚ → ℚ) : List MousePos → ℚ
| p0 :: p1 :: p2 :: rest =>
    |segAngle at2 p1 p2 - segAngle at2 p0 p1| + jitterSum at2 (p1 :: p2 :: rest)
| _ => 0

/-- `computePathJitter()`: 0 when fewer than 10 position samples exist, else the
mean absolute turning-angle change `j / (length - 2)`. -/
def computePathJitter (at2 : ℚ → ℚ → ℚ) (ps : List MousePos) : ℚ :=
  if ps.length < 10 then 0 else jitterSum at2 ps / ((ps.length : ℚ) - 2)

/-- Adjacent differences `t[i] - t[i-1]` of a series (the `iv` and `acc` loops). -/
def adjDiffs : List ℚ → List ℚ
| a :: b :: rest => (b - a) :: adjDiffs (b :: rest)
| _ => []

/-- `computeTimingVariance(t)`: 0 when fewer than 3 timestamps, else the standard
deviation of the inter-event intervals, with `sq` standing for `Math.sqrt`. -/
def computeTimingVariance (sq : ℚ → ℚ) (t : List ℚ) : ℚ :=
  if t.length < 3 then 0
  else
    let iv := adjDiffs t
    let m := iv.sum / (iv.length : ℚ)
    sq ((iv.map (fun b => (b - m) ^ 2)).sum / (iv.length : ℚ))

/-- `Math.sign` on an exact rational. -/
def qsign (q : ℚ) : ℤ :=
  if 0 < q then 1 else if q < 0 then -1 else 0

/-- `computeVelocityNaturalness()`: 0 when fewer than 5 velocity samples, else the
fraction of indices `i > 0` of the acceleration series whose sign differs from
the previous entry (the `acc.filter((a, i) => ...)` expression, with
`acc[i-1] || 0` modelled by a 0 default). -/
def computeVelocityNaturalness (vs : List ℚ) : ℚ :=
  if vs.length < 5 then 0
  else
    let acc := adjDiffs vs
    (((acc.enum).filter (fun p =>
        decide (0 < p.1) && decide (qsign p.2 ≠ qsign (acc.getD (p.1 - 1) 0)))).length : ℚ)
      / (acc.length : ℚ)

/-- `Math.round`: round half toward positive infinity. -/
def jsRound (q : ℚ) : ℤ := ⌊q + 1 / 2⌋

/-- The `pathNaturalness` bucket from the jitter value. -/
def pathScore (jitter : ℚ) : ℤ :=
  if 1 / 20 < jitter ∧ jitter < 3 / 2 then 25 else if 1 / 50 < jitter then 15 else 5

/-- The `timingHumanness` bucket from the timing variance. -/
def timingScore (variance : ℚ) : ℤ :=
  if 15 < variance ∧ variance < 300 then 25 else if 5 < variance then 15 else 0

/-- The `bioSignal` bucket from the micro-movement ratio. -/
def bioScore (tr : ℚ) : ℤ :=
  if 1 / 50 < tr ∧ tr < 1 / 2 then 15 else if 1 / 100 < tr then 8 else 0

/-- The `velocityProfile` bucket from the velocity-naturalness fraction. -/
def velocityScore (vn : ℚ) : ℤ :=
  if 3 / 20 < vn then 15 else if 1 / 20 < vn then 8 else 2

/-- The record returned by `analyze`, with the `details` map flattened into
`det`-prefixed fields (the source stores the same values, stringified for
display only). -/
structure VerificationResult where
  pathNaturalness : ℤ
  timingHumanness : ℤ
  bioSignal : ℤ
  velocityProfile : ℤ
  taskAccuracy : ℤ
  total : ℤ
  isHuman : Bool
  confidence : ℤ
  totalTime : ℚ
  detMouseEvents : ℕ
  detMicroMovements : ℕ
  detHesitations : ℕ
  detPathJitter : ℚ
  detTimingVariance : ℚ
  detVelocityNaturalness : ℚ
deriving DecidableEq

/-- `analyze(mode, accuracy)` with `now = Date.now()` at the call: computes the
five sub-scores, their sum, the verdict `total >= 55`, and the confidence
`min(99, round(total * 1.1))`. -/
def BehaviorAnalyzer.analyze (at2 : ℚ → ℚ → ℚ) (sq : ℚ → ℚ) (s : BehaviorAnalyzer)
    (mode : Mode) (accuracy now : ℚ) : VerificationResult :=
  let jitter := computePathJitter at2 s.mousePositions
  let timings := if mode = Mode.rhythm then s.tapTimings else s.clickTimings
  let variance := computeTimingVariance sq timings
  let tr := if 0 < s.mousePositions.length then
      (s.microMovements : ℚ) / (s.mousePositions.length : ℚ) else 0
  let vn := computeVelocityNaturalness s.mouseVelocities
  let pN := pathScore jitter
  let tH := timingScore variance
  let bS := bioScore tr
  let vP := velocityScore vn
  let tA := jsRound (accuracy * 20)
  let total := pN + tH + bS + vP + tA
  { pathNaturalness := pN
    timingHumanness := tH
    bioSignal := bS
    velocityProfile := vP
    taskAccuracy := tA
    total := total
    isHuman := decide (55 ≤ total)
    confidence := min 99 (jsRound ((total : ℚ) * (11 / 10)))
    totalTime := now - s.startTime
    detMouseEvents := s.mousePositions.length
    detMicroMovements := s.microMovements
    detHesitations := s.hesitations
    detPathJitter := jitter
    detTimingVariance := variance
    detVelocityNaturalness := vn }

/-- The `analyze` method viewed as a call on the instance: it returns its result
together with the instance state after the call (the method body contains no
assignment to any field of `this`). -/
def BehaviorAnalyzer.analyzeCall (at2 : ℚ → ℚ → ℚ) (sq : ℚ → ℚ) (s : BehaviorAnalyzer)
    (mode : Mode) (accuracy now : ℚ) : VerificationResult × BehaviorAnalyzer :=
  (s.analyze at2 sq mode accuracy now, s)

/-- The body of the `beats.forEach` loop of `evaluateRhythm`: keep the smaller
of the running minimum and `Math.abs(t - b)`, with `none` standing for the
initial `Infinity`. -/
def nearStep (t : ℚ) (m : Option ℚ) (b : ℚ) : Option ℚ :=
  match m with
  | none => some |t - b|
  | some m0 => if |t - b| < m0 then some |t - b| else some m0

/-- The running minimum over beats of `Math.abs(t - b)` in `evaluateRhythm`. -/
def nearestErr (beats : List ℚ) (t : ℚ) : Option ℚ :=
  beats.foldl (nearStep t) none

/-- The body of the `taps.forEach` loop of `evaluateRhythm`: bump `matched` and
`totalErr` when the tap's nearest-beat distance is strictly below the 250 ms
tolerance (`none`, the initial `Infinity`, never matches). -/
def matchStep (beats : List ℚ) (p : ℕ × ℚ) (t : ℚ) : ℕ × ℚ :=
  match nearestErr beats t with
  | some m => if m < 250 then (p.1 + 1, p.2 + m) else p
  | none => p

/-- The `taps.forEach` accumulation of `evaluateRhythm`: the final pair
`(matched, totalErr)`. -/
def matchFold (beats : List ℚ) (taps : List ℚ) : ℕ × ℚ :=
  taps.foldl (matchStep beats) (0, 0)

/-- `evaluateRhythm(taps)` for a pattern with the given beats: the task accuracy
`acc * 0.6 + ts * 0.4` handed to `showResult`. -/
def evaluateRhythm (beats taps : List ℚ) : ℚ :=
  let mt := matchFold beats taps
  let acc := (mt.1 : ℚ) / (beats.length : ℚ)
  let ts := if 0 < mt.1 then max 0 (1 - mt.2 / (mt.1 : ℚ) / 250) else 0
  acc * (6 / 10) + ts * (4 / 10)

/-- Modelled from the spec: the distance from a tap to its nearest beat,
`none` when the pattern is empty. -/
def minAbsErr (beats : List ℚ) (t : ℚ) : Option ℚ :=
  (beats.map (fun b => |t - b|)).min?

/-- Modelled from the spec: a tap is matched iff its nearest-beat distance is
strictly under the 250 ms tolerance. -/
def tapMatched (beats : List ℚ) (t : ℚ) : Bool :=
  match minAbsErr beats t with
  | some e => decide (e < 250)
  | none => false

/-- Modelled from the spec: the taps that match some beat. -/
def matchedTaps (beats taps : List ℚ) : List ℚ :=
  taps.filter (fun t => tapMatched beats t)

/-- Modelled from the spec: the nearest-beat errors of the matched taps. -/
def matchedErrs (beats taps : List ℚ) : List ℚ :=
  (matchedTaps beats taps).map (fun t => (minAbsErr beats t).getD 0)

/-- Modelled from the spec: rhythm accuracy as
`0.6 * (matched / totalBeats) + 0.4 * timingQuality` with
`timingQuality = max(0, 1 - meanMatchedError / 250)` and 0 when no tap matches. -/
def specRhythmAccuracy (beats taps : List ℚ) : ℚ :=
  let matched := (matchedErrs beats taps).length
  let quality := if 0 < matched then
      max 0 (1 - (matchedErrs beats taps).sum / (matched : ℚ) / 250) else 0
  (6 / 10) * ((matched : ℚ) / (beats.length : ℚ)) + (4 / 10) * quality

/-- The per-ring accuracy computed by `handleCircleClick` from the raw elapsed
time and ring duration: `1 - min(1, |elapsed / duration - 0.7| / 0.4)`. -/
def clickAccuracy (elapsed duration : ℚ) : ℚ :=
  1 - min 1 (|elapsed / duration - 7 / 10| / (4 / 10))

/-- Modelled from the spec: the same accuracy as a function of the progress
fraction alone. -/
def specRingAccuracy (progress : ℚ) : ℚ :=
  1 - min 1 (|progress - 7 / 10| / (4 / 10))

/-- The `hit` flag pushed into `circleResults`: `accuracy > 0.3`. -/
def ringHit (accuracy : ℚ) : Bool :=
  decide (3 / 10 < accuracy)

/-- A telemetry run: the analyzer state together with the ghost history of every
accepted position sample and every accepted velocity sample. -/
structure TrackRun where
  st : BehaviorAnalyzer
  accPos : List MousePos
  accVel : List ℚ
deriving DecidableEq

/-- One `trackMouse` call inside a run, recording the accepted sample (if any)
in the ghost history. -/
def trackStep (sq : ℚ → ℚ) (r : TrackRun) (e : MousePos) : TrackRun :=
  if e.t - r.st.lastMouseTime < 30 then
    { r with st := r.st.trackMouse sq e.x e.y e.t }
  else
    { st := r.st.trackMouse sq e.x e.y e.t
      accPos := r.accPos ++ [e]
      accVel := r.accVel ++ [sampleVelocity sq r.st e.x e.y e.t] }

/-- A whole session of `trackMouse` calls starting from a fresh analyzer. -/
def runTrack (sq : ℚ → ℚ) (t0 : ℚ) (events : List MousePos) : TrackRun :=
  events.foldl (trackStep sq) ⟨BehaviorAnalyzer.init t0, [], []⟩

/-- The invariant tying an analyzer state to the accepted-sample history:
the buffers are the most recent 150 accepted samples, histories are
index-aligned, and the last-sample fields match the last accepted sample. -/
def TrackInv (r : TrackRun) : Prop :=
  r.st.mousePositions = r.accPos.drop (r.accPos.length - 150) ∧
  r.st.mouseVelocities = r.accVel.drop (r.accVel.length - 150) ∧
  r.accPos.length = r.accVel.length ∧
  r.st.lastMousePos = ((r.accPos.getLast?).map (fun p => (p.x, p.y))).getD (0, 0) ∧
  r.st.lastMouseTime = ((r.accPos.getLast?).map (fun p => p.t)).getD 0

/-- The phase union of the `RhythmCaptcha` component. -/
inductive Phase
| idle
| select
| listen
| play
| target
| checking
| result
deriving DecidableEq

/-- The slice of the component state observed by the `onResult` effect, with a
ghost log of the `onResult(isHuman)` invocations performed so far. -/
structure CaptchaView where
  phase : Phase
  result : Option VerificationResult
  hasReported : Bool
  onResultCalls : List Bool
deriving DecidableEq

/-- One run of the `onResult` effect body: when the phase is `result`, a result
is present and `hasReported` is still false, invoke the callback with
`result.isHuman` and set `hasReported`; otherwise do nothing. -/
def onResultEffect (v : CaptchaView) : CaptchaView :=
  match v.result with
  | some r =>
      if v.phase = Phase.result ∧ v.hasReported = false then
        { v with onResultCalls := v.onResultCalls ++ [r.isHuman], hasReported := true }
      else v
  | none => v

lemma pathScore_mem (j : ℚ) : 5 ≤ pathScore j ∧ pathScore j ≤ 25 := by
  unfold pathScore
  split_ifs <;> norm_num

lemma timingScore_mem (v : ℚ) : 0 ≤ timingScore v ∧ timingScore v ≤ 25 := by
  unfold timingScore
  split_ifs <;> norm_num

lemma bioScore_mem (tr : ℚ) : 0 ≤ bioScore tr ∧ bioScore tr ≤ 15 := by
  unfold bioScore
  split_ifs <;> norm_num

lemma velocityScore_mem (vn : ℚ) : 2 ≤ velocityScore vn ∧ velocityScore vn ≤ 15 := by
  unfold velocityScore
  split_ifs <;> norm_num

lemma jsRound_acc_mem {a : ℚ} (h0 : 0 ≤ a) (h1 : a ≤ 1) :
    0 ≤ jsRound (a * 20) ∧ jsRound (a * 20) ≤ 20 := by
  unfold jsRound
  constructor
  · apply Int.le_floor.mpr
    push_cast
    linarith
  · apply Int.floor_le_iff.mpr
    push_cast
    linarith

/-- Claim C3: for every session and accuracy in [0,1], the analyze result has
`total` equal to the sum of the five sub-scores, `total` within [0,100],
`isHuman` true exactly when `total ≥ 55` (so 54 fails and 55 passes), and
`confidence = min(99, round(total * 1.1))`. -/
theorem analyze_total_verdict (at2 : ℚ → ℚ → ℚ) (sq : ℚ → ℚ) (s : BehaviorAnalyzer)
    (mode : Mode) (accuracy now : ℚ) (h0 : 0 ≤ accuracy) (h1 : accuracy ≤ 1) :
    (s.analyze at2 sq mode accuracy now).total =
        (s.analyze at2 sq mode accuracy now).pathNaturalness +
        (s.analyze at2 sq mode accuracy now).timingHumanness +
        (s.analyze at2 sq mode accuracy now).bioSignal +
        (s.analyze at2 sq mode accuracy now).velocityProfile +
        (s.analyze at2 sq mode accuracy now).taskAccuracy ∧
    0 ≤ (s.analyze at2 sq mode accuracy now).total ∧
    (s.analyze at2 sq mode accuracy now).total ≤ 100 ∧
    ((s.analyze at2 sq mode accuracy now).isHuman = true ↔
      55 ≤ (s.analyze at2 sq mode accuracy now).total) ∧
    (s.analyze at2 sq mode accuracy now).confidence =
      min 99 (jsRound (((s.analyze at2 sq mode accuracy now).total : ℚ) * (11 / 10))) := by
  obtain ⟨hp1, hp2⟩ := pathScore_mem (computePathJitter at2 s.mousePositions)
  obtain ⟨ht1, ht2⟩ := timingScore_mem (computeTimingVariance sq
    (if mode = Mode.rhythm then s.tapTimings else s.clickTimings))
  obtain ⟨hb1, hb2⟩ := bioScore_mem (if 0 < s.mousePositions.length then
    (s.microMovements : ℚ) / (s.mousePositions.length : ℚ) else 0)
  obtain ⟨hv1, hv2⟩ := velocityScore_mem (computeVelocityNaturalness s.mouseVelocities)
  obtain ⟨ha1, ha2⟩ := jsRound_acc_mem h0 h1
  have htot : (s.analyze at2 sq mode accuracy now).total =
      pathScore (computePathJitter at2 s.mousePositions) +
      timingScore (computeTimingVariance sq
        (if mode = Mode.rhythm then s.tapTimings else s.clickTimings)) +
      bioScore (if 0 < s.mousePositions.length then
        (s.microMovements : ℚ) / (s.mousePositions.length : ℚ) else 0) +
      velocityScore (computeVelocityNaturalness s.mouseVelocities) +
      jsRound (accuracy * 20) := rfl
  have hish : (s.analyze at2 sq mode accuracy now).isHuman =
      decide (55 ≤ (s.analyze at2 sq mode accuracy now).total) := rfl
  refine ⟨rfl, ?_, ?_, ?_, rfl⟩
  · rw [htot]; linarith
  · rw [htot]; linarith
  · rw [hish]; exact decide_eq_true_iff

/-- Claim C3 witness at a concrete session and accuracy. -/
theorem analyze_total_verdict_witness :
    0 ≤ ((BehaviorAnalyzer.init 0).analyze (fun _ _ => 0) (fun q => q)
        Mode.rhythm (1 / 2) 100).total ∧
    ((BehaviorAnalyzer.init 0).analyze (fun _ _ => 0) (fun q => q)
        Mode.rhythm (1 / 2) 100).total ≤ 100 :=
  ⟨(analyze_total_verdict (fun _ _ => 0) (fun q => q) (BehaviorAnalyzer.init 0)
      Mode.rhythm (1 / 2) 100 (by norm_num) (by norm_num)).2.1,
   (analyze_total_verdict (fun _ _ => 0) (fun q => q) (BehaviorAnalyzer.init 0)
      Mode.rhythm (1 / 2) 100 (by norm_num) (by norm_num)).2.2.1⟩

/-- Claim C1 counterexample: a session with fewer than 10 position samples where
`pathNaturalness` is 5, not 0 — the zero jitter falls into the final `else`
branch worth 5 points. -/
theorem path_low_samples_cex :
    (BehaviorAnalyzer.init 0).mousePositions.length < 10 ∧
    ((BehaviorAnalyzer.init 0).analyze (fun _ _ => 0) (fun q => q)
        Mode.rhythm 0 0).pathNaturalness = 5 := by
  constructor
  · norm_num [BehaviorAnalyzer.init]
  · norm_num [BehaviorAnalyzer.analyze, BehaviorAnalyzer.init, computePathJitter, pathScore]

/-- Claim C1 (amended): for every session whose telemetry holds fewer than 10
position samples, `pathNaturalness` equals 5, regardless of the other inputs. -/
theorem path_low_samples_score (at2 : ℚ → ℚ → ℚ) (sq : ℚ → ℚ) (s : BehaviorAnalyzer)
    (mode : Mode) (accuracy now : ℚ) (h : s.mousePositions.length < 10) :
    (s.analyze at2 sq mode accuracy now).pathNaturalness = 5 := by
  simp only [BehaviorAnalyzer.analyze]
  rw [computePathJitter, if_pos h]
  norm_num [pathScore]

/-- Claim C1 witness for the amended statement. -/
theorem path_low_samples_score_witness :
    ((BehaviorAnalyzer.init 3).analyze (fun _ _ => 1) (fun q => q)
        Mode.precision 1 7).pathNaturalness = 5 :=
  path_low_samples_score (fun _ _ => 1) (fun q => q) (BehaviorAnalyzer.init 3)
    Mode.precision 1 7 (by norm_num [BehaviorAnalyzer.init])

/-- Claim C2 counterexample: a session with fewer than 5 velocity samples where
`velocityProfile` is 2, not 0 — the zero naturalness value falls into the final
`else` branch worth 2 points. -/
theorem velocity_low_samples_cex :
    (BehaviorAnalyzer.init 0).mouseVelocities.length < 5 ∧
    ((BehaviorAnalyzer.init 0).analyze (fun _ _ => 0) (fun q => q)
        Mode.rhythm 0 0).velocityProfile = 2 := by
  constructor
  · norm_num [BehaviorAnalyzer.init]
  · norm_num [BehaviorAnalyzer.analyze, BehaviorAnalyzer.init,
      computeVelocityNaturalness, velocityScore]

/-- Claim C2 (amended): fewer than 5 velocity samples give `velocityProfile = 2`
(not 0); with 5 or more samples the sub-score is 15 when the sign-change
fraction exceeds 0.15, 8 when it exceeds 0.05, and 2 otherwise. -/
theorem velocity_profile_score (at2 : ℚ → ℚ → ℚ) (sq : ℚ → ℚ) (s : BehaviorAnalyzer)
    (mode : Mode) (accuracy now : ℚ) :
    (s.mouseVelocities.length < 5 →
      (s.analyze at2 sq mode accuracy now).velocityProfile = 2) ∧
    (5 ≤ s.mouseVelocities.length →
      (s.analyze at2 sq mode accuracy now).velocityProfile =
        (if 3 / 20 < computeVelocityNaturalness s.mouseVelocities then 15
         else if 1 / 20 < computeVelocityNaturalness s.mouseVelocities then 8 else 2)) := by
  constructor
  · intro h
    simp only [BehaviorAnalyzer.analyze]
    rw [computeVelocityNaturalness, if_pos h]
    norm_num [velocityScore]
  · intro _
    simp only [BehaviorAnalyzer.analyze]
    rw [velocityScore]

/-- Claim C2 witness for the amended statement. -/
theorem velocity_profile_score_witness :
    ((BehaviorAnalyzer.init 0).analyze (fun _ _ => 0) (fun q => q)
        Mode.precision 0 0).velocityProfile = 2 :=
  (velocity_profile_score (fun _ _ => 0) (fun q => q) (BehaviorAnalyzer.init 0)
      Mode.precision 0 0).1 (by norm_num [BehaviorAnalyzer.init])

/-- Claim C5: the per-ring accuracy is `1 - min(1, |progress - 0.7| / 0.4)` of
the progress fraction `elapsed / duration`; a click exactly at progress 0.7
scores 1, clicks at progress 0.3 and 1.1 score 0 (clamped), an accuracy of
exactly 0.3 (reached, e.g., at progress 0.98) is not a hit, and accuracy 1 is. -/
theorem precision_click_accuracy :
    (∀ elapsed duration : ℚ, clickAccuracy elapsed duration = specRingAccuracy (elapsed / duration)) ∧
    specRingAccuracy (7 / 10) = 1 ∧
    specRingAccuracy (3 / 10) = 0 ∧
    specRingAccuracy (11 / 10) = 0 ∧
    specRingAccuracy (49 / 50) = 3 / 10 ∧
    ringHit (specRingAccuracy (49 / 50)) = false ∧
    ringHit (specRingAccuracy (7 / 10)) = true := by
  refine ⟨fun e d => rfl, ?_, ?_, ?_, ?_, ?_, ?_⟩
  · norm_num [specRingAccuracy]
  · rw [specRingAccuracy, abs_of_nonpos (by norm_num)]
    norm_num
  · rw [specRingAccuracy, abs_of_nonneg (by norm_num)]
    norm_num
  · rw [specRingAccuracy, abs_of_nonneg (by norm_num)]
    rw [show ((49 : ℚ) / 50 - 7 / 10) / (4 / 10) = 7 / 10 by norm_num,
      min_eq_right (by norm_num)]
    norm_num
  · rw [ringHit, specRingAccuracy, abs_of_nonneg (by norm_num)]
    rw [show ((49 : ℚ) / 50 - 7 / 10) / (4 / 10) = 7 / 10 by norm_num,
      min_eq_right (by norm_num)]
    norm_num
  · norm_num [ringHit, specRingAccuracy]

/-- Claim C9 counterexample: two `analyze` calls on the identical collected
telemetry, mode and accuracy, made at different wall-clock instants, return
different `VerificationResult`s — they disagree on `totalTime`. -/
theorem analyze_wallclock_cex :
    (BehaviorAnalyzer.init 0).analyze (fun _ _ => 0) (fun q => q) Mode.rhythm 1 0 ≠
    (BehaviorAnalyzer.init 0).analyze (fun _ _ => 0) (fun q => q) Mode.rhythm 1 1 := by
  intro h
  have h2 := congrArg VerificationResult.totalTime h
  simp only [BehaviorAnalyzer.analyze, BehaviorAnalyzer.init] at h2
  norm_num at h2

/-- Claim C9 (amended): `analyze` is a pure function of the collected telemetry,
the challenge mode, the task accuracy and the invocation instant; every field of
the result except `totalTime` is independent of the invocation instant,
`totalTime` is exactly the invocation instant minus the session start, and the
call leaves the analyzer state unchanged. -/
theorem analyze_deterministic_fields (at2 : ℚ → ℚ → ℚ) (sq : ℚ → ℚ)
    (s : BehaviorAnalyzer) (mode : Mode) (accuracy now1 now2 : ℚ) :
    (s.analyze at2 sq mode accuracy now1).pathNaturalness =
      (s.analyze at2 sq mode accuracy now2).pathNaturalness ∧
    (s.analyze at2 sq mode accuracy now1).timingHumanness =
      (s.analyze at2 sq mode accuracy now2).timingHumanness ∧
    (s.analyze at2 sq mode accuracy now1).bioSignal =
      (s.analyze at2 sq mode accuracy now2).bioSignal ∧
    (s.analyze at2 sq mode accuracy now1).velocityProfile =
      (s.analyze at2 sq mode accuracy now2).velocityProfile ∧
    (s.analyze at2 sq mode accuracy now1).taskAccuracy =
      (s.analyze at2 sq mode accuracy now2).taskAccuracy ∧
    (s.analyze at2 sq mode accuracy now1).total =
      (s.analyze at2 sq mode accuracy now2).total ∧
    (s.analyze at2 sq mode accuracy now1).isHuman =
      (s.analyze at2 sq mode accuracy now2).isHuman ∧
    (s.analyze at2 sq mode accuracy now1).confidence =
      (s.analyze at2 sq mode accuracy now2).confidence ∧
    (s.analyze at2 sq mode accuracy now1).detMouseEvents =
      (s.analyze at2 sq mode accuracy now2).detMouseEvents ∧
    (s.analyze at2 sq mode accuracy now1).detMicroMovements =
      (s.analyze at2 sq mode accuracy now2).detMicroMovements ∧
    (s.analyze at2 sq mode accuracy now1).detHesitations =
      (s.analyze at2 sq mode accuracy now2).detHesitations ∧
    (s.analyze at2 sq mode accuracy now1).detPathJitter =
      (s.analyze at2 sq mode accuracy now2).detPathJitter ∧
    (s.analyze at2 sq mode accuracy now1).detTimingVariance =
      (s.analyze at2 sq mode accuracy now2).detTimingVariance ∧
    (s.analyze at2 sq mode accuracy now1).detVelocityNaturalness =
      (s.analyze at2 sq mode accuracy now2).detVelocityNaturalness ∧
    (s.analyze at2 sq mode accuracy now1).totalTime = now1 - s.startTime ∧
    (s.analyze at2 sq mode accuracy now2).totalTime = now2 - s.startTime ∧
    (s.analyzeCall at2 sq mode accuracy now1).2 = s :=
  ⟨rfl, rfl, rfl, rfl, rfl, rfl, rfl, rfl, rfl, rfl, rfl, rfl, rfl, rfl, rfl, rfl, rfl⟩

/-- Claim C10: a fresh collector has its baseline at position (0,0) and time 0;
the first accepted `trackMouse` call therefore measures its displacement from
the origin and its interval from epoch 0, and whenever the computed distance of
the first position from the origin exceeds 5 (with the wall clock past 200 ms,
always true for epoch milliseconds), that first call already increments the
hesitation counter to 1. -/
theorem first_sample_hesitation (sq : ℚ → ℚ) (t0 x y now : ℚ)
    (h200 : 200 < now) (hd : 5 < sq (x * x + y * y)) :
    (BehaviorAnalyzer.init t0).lastMousePos = (0, 0) ∧
    (BehaviorAnalyzer.init t0).lastMouseTime = 0 ∧
    ((BehaviorAnalyzer.init t0).trackMouse sq x y now).mousePositions = [⟨x, y, now⟩] ∧
    ((BehaviorAnalyzer.init t0).trackMouse sq x y now).mouseVelocities =
      [sq (x * x + y * y) / now] ∧
    ((BehaviorAnalyzer.init t0).trackMouse sq x y now).hesitations = 1 := by
  have hn30 : ¬ (now < 30) := by linarith
  have hpos : (0 : ℚ) < now := by linarith
  refine ⟨rfl, rfl, ?_, ?_, ?_⟩ <;>
    simp [BehaviorAnalyzer.trackMouse, BehaviorAnalyzer.init, sampleVelocity,
      hn30, hpos, h200, hd]

/-- Claim C10 witness: first position (6,8), clock at 300 ms, distance oracle
returning 10 > 5. -/
theorem first_sample_hesitation_witness :
    ((BehaviorAnalyzer.init 0).trackMouse (fun _ => 10) 6 8 300).mouseVelocities =
      [(fun _ => (10 : ℚ)) (6 * 6 + 8 * 8) / 300] ∧
    ((BehaviorAnalyzer.init 0).trackMouse (fun _ => 10) 6 8 300).hesitations = 1 :=
  ⟨(first_sample_hesitation (fun _ => 10) 0 6 8 300 (by norm_num) (by norm_num)).2.2.2.1,
   (first_sample_hesitation (fun _ => 10) 0 6 8 300 (by norm_num) (by norm_num)).2.2.2.2⟩

lemma onResultEffect_reported (v : CaptchaView) (h : v.hasReported = true) :
    onResultEffect v = v := by
  unfold onResultEffect
  cases hr : v.result with
  | none => rfl
  | some r => simp [h]

/-- Claim C8: once a session reaches the `result` state with a result present
and not yet reported, any positive number of runs of the `onResult` effect
leaves exactly one recorded callback invocation, carrying the verdict's
`isHuman` boolean — never zero and never more than one. -/
theorem onResult_once (r : VerificationResult) (n : ℕ) (h : 1 ≤ n) :
    (onResultEffect^[n] ⟨Phase.result, some r, false, []⟩).onResultCalls = [r.isHuman] := by
  obtain ⟨m, rfl⟩ : ∃ m, n = m + 1 := ⟨n - 1, by omega⟩
  rw [Function.iterate_succ_apply]
  have h1 : onResultEffect ⟨Phase.result, some r, false, []⟩ =
      ⟨Phase.result, some r, true, [r.isHuman]⟩ := by
    simp [onResultEffect]
  rw [h1, Function.iterate_fixed (onResultEffect_reported _ rfl) m]

/-- Claim C8 witness: two effect runs on a concrete fresh-session result record
exactly one callback. -/
theorem onResult_once_witness :
    (onResultEffect^[2] ⟨Phase.result,
        some ((BehaviorAnalyzer.init 0).analyze (fun _ _ => 0) (fun q => q) Mode.rhythm 0 0),
        false, []⟩).onResultCalls =
      [((BehaviorAnalyzer.init 0).analyze (fun _ _ => 0) (fun q => q) Mode.rhythm 0 0).isHuman] :=
  onResult_once ((BehaviorAnalyzer.init 0).analyze (fun _ _ => 0) (fun q => q) Mode.rhythm 0 0)
    2 (by norm_num)

lemma nearStep_some (t m0 b : ℚ) : nearStep t (some m0) b = some (min m0 |t - b|) := by
  unfold nearStep
  dsimp only
  rcases lt_or_le (|t - b|) m0 with h | h
  · rw [if_pos h, min_eq_right (le_of_lt h)]
  · rw [if_neg (not_lt.mpr h), min_eq_left h]

lemma foldl_nearStep (t : ℚ) : ∀ (bs : List ℚ) (m0 : ℚ),
    bs.foldl (nearStep t) (some m0) = some (bs.foldl (fun a b => min a |t - b|) m0) := by
  intro bs
  induction bs with
  | nil => intro m0; rfl
  | cons b bs ih =>
      intro m0
      rw [List.foldl_cons, nearStep_some, ih, List.foldl_cons]

lemma nearestErr_eq_minAbsErr (beats : List ℚ) (t : ℚ) :
    nearestErr beats t = minAbsErr beats t := by
  cases beats with
  | nil => rfl
  | cons b bs =>
      unfold nearestErr minAbsErr
      rw [List.foldl_cons]
      rw [show nearStep t none b = some |t - b| from rfl, foldl_nearStep]
      rw [List.map_cons]
      rw [show (|t - b| :: bs.map (fun x => |t - x|)).min? =
        some ((bs.map (fun x => |t - x|)).foldl min (|t - b|)) from rfl]
      rw [List.foldl_map]

lemma matchStep_eq (beats : List ℚ) (p : ℕ × ℚ) (t : ℚ) :
    matchStep beats p t =
      if tapMatched beats t then (p.1 + 1, p.2 + (minAbsErr beats t).getD 0) else p := by
  unfold matchStep tapMatched
  rw [nearestErr_eq_minAbsErr]
  cases h : minAbsErr beats t with
  | none => simp
  | some m =>
      by_cases hm : m < 250 <;> simp [hm]

lemma foldl_matchStep (beats : List ℚ) : ∀ (taps : List ℚ) (p : ℕ × ℚ),
    taps.foldl (matchStep beats) p =
      (p.1 + (matchedErrs beats taps).length, p.2 + (matchedErrs beats taps).sum) := by
  intro taps
  induction taps with
  | nil => intro p; simp [matchedErrs, matchedTaps]
  | cons t ts ih =>
      intro p
      rw [List.foldl_cons, matchStep_eq]
      by_cases h : tapMatched beats t
      · rw [if_pos h, ih]
        have hmt : matchedTaps beats (t :: ts) = t :: matchedTaps beats ts := by
          simp [matchedTaps, h]
        refine Prod.ext ?_ ?_ <;> simp [matchedErrs, hmt]
        · omega
        · ring
      · rw [if_neg h, ih]
        have hmt : matchedTaps beats (t :: ts) = matchedTaps beats ts := by
          simp [matchedTaps, h]
        simp [matchedErrs, hmt]

lemma matchFold_eq (beats taps : List ℚ) :
    matchFold beats taps =
      ((matchedErrs beats taps).length, (matchedErrs beats taps).sum) := by
  unfold matchFold
  rw [foldl_matchStep]
  simp

/-- Claim C4: rhythm evaluation matches each tap to its nearest beat, counts it
as matched iff the distance is strictly under 250 ms, and yields
`0.6 * (matched / totalBeats) + 0.4 * max(0, 1 - meanMatchedError / 250)` with
timing quality 0 (no division) when nothing matches; on beats [0,600,1200] and
taps [10,590,1250] all three taps match with total error 70, giving accuracy
361/375 ≈ 0.963, and taps all farther than 250 ms from every beat give 0. -/
theorem rhythm_eval :
    (∀ beats taps : List ℚ, 0 < beats.length →
      evaluateRhythm beats taps = specRhythmAccuracy beats taps) ∧
    matchFold [0, 600, 1200] [10, 590, 1250] = (3, 70) ∧
    evaluateRhythm [0, 600, 1200] [10, 590, 1250] = 361 / 375 ∧
    matchFold [0, 600, 1200] [300, 900, 1500] = (0, 0) ∧
    evaluateRhythm [0, 600, 1200] [300, 900, 1500] = 0 := by
  refine ⟨fun beats taps _hb => ?_, ?_, ?_, ?_, ?_⟩
  · unfold evaluateRhythm specRhythmAccuracy
    rw [matchFold_eq]
    dsimp only
    ring
  · norm_num [matchFold, matchStep, nearestErr, nearStep]
  · norm_num [evaluateRhythm, matchFold, matchStep, nearestErr, nearStep]
  · norm_num [matchFold, matchStep, nearestErr, nearStep]
  · norm_num [evaluateRhythm, matchFold, matchStep, nearestErr, nearStep]

/-- Claim C4 witness: the code's evaluation coincides with the spec formula on
the concrete pattern of the spec. -/
theorem rhythm_eval_witness :
    evaluateRhythm [0, 600, 1200] [10, 590, 1250] =
      specRhythmAccuracy [0, 600, 1200] [10, 590, 1250] :=
  rhythm_eval.1 [0, 600, 1200] [10, 590, 1250] (by norm_num)

lemma trackMouse_drop (sq : ℚ → ℚ) (s : BehaviorAnalyzer) (x y now : ℚ)
    (h : now - s.lastMouseTime < 30) : s.trackMouse sq x y now = s := by
  simp only [BehaviorAnalyzer.trackMouse]
  rw [if_pos h]

lemma window_step {α β : Type} (l : List α) (l2 : List β) (a : α) (b : β)
    (hl : l.length = l2.length) :
    (if 150 < (l.drop (l.length - 150) ++ [a]).length
      then (l2.drop (l2.length - 150) ++ [b]).drop 1
      else l2.drop (l2.length - 150) ++ [b])
    = (l2 ++ [b]).drop ((l2 ++ [b]).length - 150) := by
  have hcondlen : (l.drop (l.length - 150) ++ [a]).length =
      l2.length - (l2.length - 150) + 1 := by
    simp [hl]
  by_cases h : l2.length < 150
  · have h2 : ¬ 150 < (l.drop (l.length - 150) ++ [a]).length := by
      rw [hcondlen]; omega
    have h0 : l2.length - 150 = 0 := by omega
    have h1 : (l2 ++ [b]).length - 150 = 0 := by simp; omega
    rw [if_neg h2, h0, h1, List.drop_zero, List.drop_zero]
  · push_neg at h
    have h2 : 150 < (l.drop (l.length - 150) ++ [a]).length := by
      rw [hcondlen]; omega
    have hd1 : 1 ≤ (l2.drop (l2.length - 150)).length := by
      rw [List.length_drop]; omega
    rw [if_pos h2, List.drop_append_of_le_length hd1, List.drop_drop]
    have hd2 : (l2 ++ [b]).length - 150 ≤ l2.length := by simp
    rw [List.drop_append_of_le_length hd2]
    have hidx : l2.length - 150 + 1 = (l2 ++ [b]).length - 150 := by simp; omega
    rw [hidx]

lemma trackStep_inv (sq : ℚ → ℚ) (r : TrackRun) (e : MousePos) (h : TrackInv r) :
    TrackInv (trackStep sq r e) := by
  obtain ⟨hpos, hvel, hlen, hlp, hlt⟩ := h
  unfold trackStep
  by_cases hdt : e.t - r.st.lastMouseTime < 30
  · rw [if_pos hdt, trackMouse_drop sq r.st e.x e.y e.t hdt]
    exact ⟨hpos, hvel, hlen, hlp, hlt⟩
  · rw [if_neg hdt]
    have hacc : r.st.trackMouse sq e.x e.y e.t = { r.st with
        mousePositions := if 150 < (r.st.mousePositions ++ [e]).length
          then (r.st.mousePositions ++ [e]).drop 1 else r.st.mousePositions ++ [e]
        mouseVelocities := if 150 < (r.st.mousePositions ++ [e]).length
          then (r.st.mouseVelocities ++ [sampleVelocity sq r.st e.x e.y e.t]).drop 1
          else r.st.mouseVelocities ++ [sampleVelocity sq r.st e.x e.y e.t]
        microMovements := r.st.microMovements +
          (if 0 < sq ((e.x - r.st.lastMousePos.1) * (e.x - r.st.lastMousePos.1) +
              (e.y - r.st.lastMousePos.2) * (e.y - r.st.lastMousePos.2)) ∧
            sq ((e.x - r.st.lastMousePos.1) * (e.x - r.st.lastMousePos.1) +
              (e.y - r.st.lastMousePos.2) * (e.y - r.st.lastMousePos.2)) < 3 then 1 else 0)
        hesitations := r.st.hesitations +
          (if 200 < e.t - r.st.lastMouseTime ∧
            5 < sq ((e.x - r.st.lastMousePos.1) * (e.x - r.st.lastMousePos.1) +
              (e.y - r.st.lastMousePos.2) * (e.y - r.st.lastMousePos.2)) then 1 else 0)
        lastMouseTime := e.t
        lastMousePos := (e.x, e.y) } := by
      simp only [BehaviorAnalyzer.trackMouse]
      rw [if_neg hdt]
    refine ⟨?_, ?_, ?_, ?_, ?_⟩
    · show (r.st.trackMouse sq e.x e.y e.t).mousePositions = _
      rw [hacc]
      show (if 150 < (r.st.mousePositions ++ [e]).length
          then (r.st.mousePositions ++ [e]).drop 1 else r.st.mousePositions ++ [e]) = _
      rw [hpos]
      exact window_step r.accPos r.accPos e e rfl
    · show (r.st.trackMouse sq e.x e.y e.t).mouseVelocities = _
      rw [hacc]
      show (if 150 < (r.st.mousePositions ++ [e]).length
          then (r.st.mouseVelocities ++ [sampleVelocity sq r.st e.x e.y e.t]).drop 1
          else r.st.mouseVelocities ++ [sampleVelocity sq r.st e.x e.y e.t]) = _
      rw [hpos, hvel]
      exact window_step r.accPos r.accVel e (sampleVelocity sq r.st e.x e.y e.t) hlen
    · show (r.accPos ++ [e]).length = (r.accVel ++ [sampleVelocity sq r.st e.x e.y e.t]).length
      simp [hlen]
    · show (r.st.trackMouse sq e.x e.y e.t).lastMousePos = _
      rw [hacc]
      show (e.x, e.y) = ((((r.accPos ++ [e]).getLast?).map (fun p => (p.x, p.y))).getD (0, 0))
      rw [List.getLast?_concat]
      rfl
    · show (r.st.trackMouse sq e.x e.y e.t).lastMouseTime = _
      rw [hacc]
      show e.t = ((((r.accPos ++ [e]).getLast?).map (fun p => p.t)).getD 0)
      rw [List.getLast?_concat]
      rfl

lemma runTrack_inv (sq : ℚ → ℚ) :
    ∀ (events : List MousePos) (r : TrackRun), TrackInv r →
      TrackInv (events.foldl (trackStep sq) r) := by
  intro events
  induction events with
  | nil => intro r h; exact h
  | cons e es ih =>
      intro r h
      rw [List.foldl_cons]
      exact ih _ (trackStep_inv sq r e h)

lemma trackInv_init (t0 : ℚ) : TrackInv ⟨BehaviorAnalyzer.init t0, [], []⟩ :=
  ⟨rfl, rfl, rfl, rfl, rfl⟩

lemma runTrack_trackInv (sq : ℚ → ℚ) (t0 : ℚ) (events : List MousePos) :
    TrackInv (runTrack sq t0 events) :=
  runTrack_inv sq events _ (trackInv_init t0)

/-- Claim C6: after any sequence of `trackMouse` calls from a fresh collector,
the position and velocity buffers hold at most 150 entries, have equal length,
and are exactly the most recent 150 accepted samples (FIFO eviction): index 0
always holds entry `N - 150` (zero-based, clamped at 0) of the accepted-sample
history of length `N`. -/
theorem telemetry_window (sq : ℚ → ℚ) (t0 : ℚ) (events : List MousePos) :
    (runTrack sq t0 events).st.mousePositions.length ≤ 150 ∧
    (runTrack sq t0 events).st.mousePositions.length =
      (runTrack sq t0 events).st.mouseVelocities.length ∧
    (runTrack sq t0 events).st.mousePositions =
      (runTrack sq t0 events).accPos.drop ((runTrack sq t0 events).accPos.length - 150) ∧
    (runTrack sq t0 events).st.mouseVelocities =
      (runTrack sq t0 events).accVel.drop ((runTrack sq t0 events).accVel.length - 150) ∧
    (runTrack sq t0 events).st.mousePositions[0]? =
      (runTrack sq t0 events).accPos[(runTrack sq t0 events).accPos.length - 150]? := by
  obtain ⟨hpos, hvel, hlen, _, _⟩ := runTrack_trackInv sq t0 events
  refine ⟨?_, ?_, hpos, hvel, ?_⟩
  · rw [hpos, List.length_drop]
    omega
  · rw [hpos, hvel, List.length_drop, List.length_drop, hlen]
  · rw [hpos, List.getElem?_drop]
    simp

/-- Claim C7: a pointer event arriving less than 30 ms after the last accepted
sample leaves the collector state entirely unchanged; an accepted event appends
a velocity computed against the last accepted sample (the `lastMousePos` /
`lastMouseTime` fields), and over any run those fields always equal the
coordinates and timestamp of the most recent accepted sample. -/
theorem trackMouse_throttle (sq : ℚ → ℚ) (s : BehaviorAnalyzer) (x y now : ℚ) :
    (now - s.lastMouseTime < 30 → s.trackMouse sq x y now = s) ∧
    (¬ now - s.lastMouseTime < 30 → s.mousePositions.length = s.mouseVelocities.length →
      (s.trackMouse sq x y now).mouseVelocities.getLast? =
        some (sampleVelocity sq s x y now)) ∧
    sampleVelocity sq s x y now =
      (if 0 < now - s.lastMouseTime then
        sq ((x - s.lastMousePos.1) * (x - s.lastMousePos.1) +
          (y - s.lastMousePos.2) * (y - s.lastMousePos.2)) / (now - s.lastMouseTime)
       else 0) ∧
    (∀ (t0 : ℚ) (events : List MousePos),
      (runTrack sq t0 events).st.lastMousePos =
        (((runTrack sq t0 events).accPos.getLast?).map (fun p => (p.x, p.y))).getD (0, 0) ∧
      (runTrack sq t0 events).st.lastMouseTime =
        (((runTrack sq t0 events).accPos.getLast?).map (fun p => p.t)).getD 0) := by
  refine ⟨trackMouse_drop sq s x y now, ?_, rfl, ?_⟩
  · intro h hlen
    simp only [BehaviorAnalyzer.trackMouse]
    rw [if_neg h]
    show (if 150 < (s.mousePositions ++ [(⟨x, y, now⟩ : MousePos)]).length
        then (s.mouseVelocities ++ [sampleVelocity sq s x y now]).drop 1
        else s.mouseVelocities ++ [sampleVelocity sq s x y now]).getLast? =
      some (sampleVelocity sq s x y now)
    by_cases hc : 150 < (s.mousePositions ++ [(⟨x, y, now⟩ : MousePos)]).length
    · have h1 : 1 ≤ s.mouseVelocities.length := by
        simp at hc
        omega
      rw [if_pos hc, List.drop_append_of_le_length h1, List.getLast?_concat]
    · rw [if_neg hc, List.getLast?_concat]
  · intro t0 events
    exact ⟨(runTrack_trackInv sq t0 events).2.2.2.1, (runTrack_trackInv sq t0 events).2.2.2.2⟩

/-- Claim C7 witness: a 10 ms event on a fresh collector is dropped wholesale;
a 40 ms event is accepted and appends its velocity. -/
theorem trackMouse_throttle_witness :
    (BehaviorAnalyzer.init 5).trackMouse (fun q => q) 1 2 10 = BehaviorAnalyzer.init 5 ∧
    ((BehaviorAnalyzer.init 0).trackMouse (fun q => q) 3 4 40).mouseVelocities.getLast? =
      some (sampleVelocity (fun q => q) (BehaviorAnalyzer.init 0) 3 4 40) :=
  ⟨(trackMouse_throttle (fun q => q) (BehaviorAnalyzer.init 5) 1 2 10).1
      (by norm_num [BehaviorAnalyzer.init]),
   (trackMouse_throttle (fun q => q) (BehaviorAnalyzer.init 0) 3 4 40).2.1
      (by norm_num [BehaviorAnalyzer.init]) rfl⟩
